import Mathlib

/-!
Verification of the SonicOS audio analyzer (`src/audio/AudioAnalyzer.ts`).

We shallowly embed the analyzer's pure core over exact rationals (`ℚ`):
spectra are lists of rationals, the BPM detector is a record with explicit
state passing, and JavaScript's `Math.round` / `Math.min` / `Math.max`
become their exact rational counterparts.
-/

/-! ## Constants (AudioAnalyzer.ts lines 20-42) -/

def FFT_SIZE : ℚ := 2048
def SAMPLE_RATE : ℚ := 44100
def MIN_BPM : ℚ := 60
def MAX_BPM : ℚ := 200
def LOW_FREQ_MIN : ℚ := 20
def LOW_FREQ_MAX : ℚ := 250
def MID_FREQ_MIN : ℚ := 250
def MID_FREQ_MAX : ℚ := 4000
def HIGH_FREQ_MIN : ℚ := 4000
def HIGH_FREQ_MAX : ℚ := 20000
def LOW_WEIGHT : ℚ := 0.5
def MID_WEIGHT : ℚ := 0.3
def HIGH_WEIGHT : ℚ := 0.2
def ONSET_THRESHOLD : ℚ := 0.15
def MIN_ONSET_INTERVAL_MS : ℚ := 300
def MAX_ONSET_INTERVAL_MS : ℚ := 1000
def ONSET_HISTORY_SIZE : ℕ := 16

/-- JavaScript `Math.round`: round half toward positive infinity. -/
def jsRound (q : ℚ) : ℤ := ⌊q + 1/2⌋

/-- Embeds `frequencyToBin` (lines 48-51): `Math.round(frequency / binWidth)`
with `binWidth = sampleRate / fftSize`. -/
def frequencyToBin (frequency fftSize sampleRate : ℚ) : ℤ :=
  jsRound (frequency / (sampleRate / fftSize))

/-- Embeds `calculateBandEnergy` (lines 60-73): guard against invalid ranges,
then sum the bins `[startBin, endBin)` and divide by the count. -/
def calculateBandEnergy (fftData : List ℚ) (startBin endBin : ℤ) : ℚ :=
  if startBin ≥ endBin ∨ startBin < 0 ∨ endBin > (fftData.length : ℤ) then 0
  else
    let count : ℤ := endBin - startBin
    let sum : ℚ := ((fftData.drop startBin.toNat).take (endBin - startBin).toNat).sum
    if count > 0 then sum / (count : ℚ) else 0

/-- EnergyBands record (core/types.ts): four normalized band energies. -/
structure EnergyBands where
  low : ℚ
  mid : ℚ
  high : ℚ
  total : ℚ
deriving DecidableEq

/-- Embeds `calculateEnergyBands` (lines 78-98). -/
def calculateEnergyBands (fftData : List ℚ) (fftSize sampleRate : ℚ) : EnergyBands :=
  let lowStart := frequencyToBin LOW_FREQ_MIN fftSize sampleRate
  let lowEnd := frequencyToBin LOW_FREQ_MAX fftSize sampleRate
  let midStart := frequencyToBin MID_FREQ_MIN fftSize sampleRate
  let midEnd := frequencyToBin MID_FREQ_MAX fftSize sampleRate
  let highStart := frequencyToBin HIGH_FREQ_MIN fftSize sampleRate
  let highEnd := min (frequencyToBin HIGH_FREQ_MAX fftSize sampleRate) (fftData.length : ℤ)
  let low := calculateBandEnergy fftData lowStart lowEnd
  let mid := calculateBandEnergy fftData midStart midEnd
  let high := calculateBandEnergy fftData highStart highEnd
  let total := min 1 (max 0 (low * LOW_WEIGHT + mid * MID_WEIGHT + high * HIGH_WEIGHT))
  ⟨low, mid, high, total⟩

/-- Embeds `constrainBpm` (lines 103-105). -/
def constrainBpm (bpm : ℚ) : ℚ := min MAX_BPM (max MIN_BPM bpm)

/-! ## BPM detector (lines 111-174) -/

/-- State of the `BpmDetector` class (fields at lines 112-115). -/
structure BpmDetector where
  onsetTimes : List ℚ
  lastEnergy : ℚ
  lastOnsetTime : ℚ
  currentBpm : ℚ
deriving DecidableEq

/-- Initial field values of a fresh `BpmDetector` (lines 112-115). -/
def BpmDetector.init : BpmDetector := ⟨[], 0, 0, 120⟩

/-- Consecutive differences `onsetTimes[i] - onsetTimes[i-1]` (loop at lines 150-155). -/
def interOnsetIntervals : List ℚ → List ℚ
  | [] => []
  | [_] => []
  | a :: b :: rest => (b - a) :: interOnsetIntervals (b :: rest)

/-- Intervals kept by the filter at line 152: within `[MIN, MAX]` onset interval bounds. -/
def validIntervals (onsetTimes : List ℚ) : List ℚ :=
  (interOnsetIntervals onsetTimes).filter fun x =>
    decide (MIN_ONSET_INTERVAL_MS ≤ x) && decide (x ≤ MAX_ONSET_INTERVAL_MS)

/-- Embeds `BpmDetector.updateBpm` (lines 147-162). -/
def BpmDetector.updateBpm (d : BpmDetector) : BpmDetector :=
  let intervals := validIntervals d.onsetTimes
  if intervals.length > 0 then
    let avgInterval := intervals.sum / (intervals.length : ℚ)
    { d with currentBpm := constrainBpm (60000 / avgInterval) }
  else d

/-- Embeds `BpmDetector.processEnergy` (lines 121-145); returns the beat flag
and the updated detector state. -/
def BpmDetector.processEnergy (d : BpmDetector) (energy timestamp : ℚ) :
    Bool × BpmDetector :=
  let energyDelta := energy - d.lastEnergy
  let d1 : BpmDetector := { d with lastEnergy := energy }
  if energyDelta > ONSET_THRESHOLD ∧ timestamp - d.lastOnsetTime > MIN_ONSET_INTERVAL_MS then
    let withOnset : BpmDetector :=
      { d1 with lastOnsetTime := timestamp, onsetTimes := d1.onsetTimes ++ [timestamp] }
    let trimmed : BpmDetector :=
      if withOnset.onsetTimes.length > ONSET_HISTORY_SIZE then
        { withOnset with onsetTimes := withOnset.onsetTimes.tail }
      else withOnset
    let updated : BpmDetector :=
      if trimmed.onsetTimes.length ≥ 2 then trimmed.updateBpm else trimmed
    (true, updated)
  else (false, d1)

/-- Embeds `BpmDetector.reset` (lines 168-173). -/
def BpmDetector.reset (_ : BpmDetector) : BpmDetector := ⟨[], 0, 0, 120⟩

/-! ## AudioAnalyzer (lines 183-363): the state relevant to analysis -/

/-- AudioAnalysis record (core/types.ts). -/
structure AudioAnalysis where
  timestamp : ℚ
  fft : List ℚ
  energy : EnergyBands
  bpm : ℚ
  beat : Bool
deriving DecidableEq

/-- Analyzer state: `isConnected`, whether `analyserNode` is non-null, the BPM
detector, and the audio context's sample rate when a context exists. -/
structure AnalyzerState where
  isConnected : Bool
  hasAnalyser : Bool
  detector : BpmDetector
  ctxSampleRate : Option ℚ
deriving DecidableEq

/-- Embeds `createSilentAnalysis` (lines 330-338): `Float32Array(FFT_SIZE / 2)`
is 1024 zero bins. -/
def createSilentAnalysis (timestamp : ℚ) : AudioAnalysis :=
  { timestamp := timestamp
    fft := List.replicate 1024 0
    energy := ⟨0, 0, 0, 0⟩
    bpm := 120
    beat := false }

/-- Embeds `normalizeFftData` (lines 315-328): clamp each dB value to
`[-100, 0]` and map affinely to `[0, 1]`. -/
def normalizeFftData (fftData : List ℚ) : List ℚ :=
  fftData.map fun db => (max (-100) (min 0 db) - (-100)) / (0 - (-100))

/-- Embeds `getAnalysis` (lines 259-291): the raw dB frame read from the
analyser node is passed as input; returns the analysis and updated state. -/
def getAnalysis (st : AnalyzerState) (rawFft : List ℚ) (timestamp : ℚ) :
    AudioAnalysis × AnalyzerState :=
  if st.isConnected = false ∨ st.hasAnalyser = false then
    (createSilentAnalysis timestamp, st)
  else
    let normalized := normalizeFftData rawFft
    let energy := calculateEnergyBands normalized FFT_SIZE (st.ctxSampleRate.getD SAMPLE_RATE)
    let pe := st.detector.processEnergy energy.total timestamp
    ({ timestamp := timestamp, fft := normalized, energy := energy,
       bpm := pe.2.currentBpm, beat := pe.1 },
     { st with detector := pe.2 })

/-- Embeds `disconnect` (lines 231-254): source and analyser nodes are nulled,
the connected flag cleared, and the BPM detector reset. -/
def disconnect (st : AnalyzerState) : AnalyzerState :=
  { st with isConnected := false, hasAnalyser := false,
            detector := st.detector.reset }

/-- Operations a client can perform on the BPM detector. -/
inductive DetectorOp where
  | proc (energy timestamp : ℚ)
  | reset
deriving DecidableEq

/-- Apply one operation to a detector state. -/
def applyOp (d : BpmDetector) : DetectorOp → BpmDetector
  | .proc e t => (d.processEnergy e t).2
  | .reset => d.reset

/-- Run a sequence of operations from the initial detector state. -/
def runOps (ops : List DetectorOp) : BpmDetector :=
  ops.foldl applyOp BpmDetector.init

/-! ## Helper lemmas about list sums and slices -/

theorem list_sum_le_mul_length (l : List ℚ) (b : ℚ) (h : ∀ x ∈ l, x ≤ b) :
    l.sum ≤ b * l.length := by
  induction l with
  | nil => simp
  | cons a t ih =>
    have ha : a ≤ b := h a (List.mem_cons_self a t)
    have ht := ih fun x hx => h x (List.mem_cons_of_mem _ hx)
    simp only [List.sum_cons, List.length_cons]
    push_cast
    linarith

theorem mul_length_le_list_sum (l : List ℚ) (a : ℚ) (h : ∀ x ∈ l, a ≤ x) :
    a * l.length ≤ l.sum := by
  induction l with
  | nil => simp
  | cons c t ih =>
    have hc : a ≤ c := h c (List.mem_cons_self c t)
    have ht := ih fun x hx => h x (List.mem_cons_of_mem _ hx)
    simp only [List.sum_cons, List.length_cons]
    push_cast
    linarith

theorem list_sum_nonneg_of_mem (l : List ℚ) (h : ∀ x ∈ l, 0 ≤ x) : 0 ≤ l.sum := by
  have := mul_length_le_list_sum l 0 h
  simpa using this

theorem drop_take_eq_range_map (l : List ℚ) (a n : ℕ) (h : a + n ≤ l.length) :
    (l.drop a).take n = (List.range' a n).map fun i => l.getD i 0 := by
  induction n generalizing a with
  | zero => simp
  | succ m ih =>
    have ha : a < l.length := by omega
    rw [List.drop_eq_getElem_cons ha, List.range'_succ, List.map_cons,
        List.take_succ_cons, List.getD_eq_getElem l 0 ha, ih (a + 1) (by omega)]

/-- Range-membership bound on the band-energy result: a mean of values in
`[0,1]` stays in `[0,1]`, and the guard branches return `0`. -/
theorem calculateBandEnergy_mem_unit (data : List ℚ) (s e : ℤ)
    (h : ∀ x ∈ data, 0 ≤ x ∧ x ≤ 1) :
    0 ≤ calculateBandEnergy data s e ∧ calculateBandEnergy data s e ≤ 1 := by
  by_cases hg : s ≥ e ∨ s < 0 ∨ e > (data.length : ℤ)
  · simp [calculateBandEnergy, hg]
  · push_neg at hg
    obtain ⟨hse, hs0, hel⟩ := hg
    have hc : e - s > 0 := by omega
    have hng : ¬(s ≥ e ∨ s < 0 ∨ e > (data.length : ℤ)) := by omega
    simp only [calculateBandEnergy, if_neg hng, if_pos hc]
    set slice := (data.drop s.toNat).take (e - s).toNat with hslice
    have hmem : ∀ x ∈ slice, 0 ≤ x ∧ x ≤ 1 := fun x hx =>
      h x (List.mem_of_mem_drop (List.mem_of_mem_take hx))
    have hsum0 : 0 ≤ slice.sum := list_sum_nonneg_of_mem _ fun x hx => (hmem x hx).1
    have hsum1 : slice.sum ≤ (slice.length : ℚ) := by
      have := list_sum_le_mul_length slice 1 fun x hx => (hmem x hx).2
      simpa using this
    have hcast : ((e - s).toNat : ℚ) = ((e - s : ℤ) : ℚ) := by
      rw [← Int.cast_natCast, Int.toNat_of_nonneg (by omega)]
    have hlen : (slice.length : ℚ) ≤ ((e - s : ℤ) : ℚ) := by
      rw [← hcast]
      exact_mod_cast List.length_take_le _ _
    have hcpos : (0 : ℚ) < ((e - s : ℤ) : ℚ) := by exact_mod_cast hc
    constructor
    · exact div_nonneg hsum0 (le_of_lt hcpos)
    · rw [div_le_one hcpos]
      exact le_trans hsum1 hlen

/-- C1: for every spectrum whose bin magnitudes all lie in [0,1],
`calculateEnergyBands` returns `low`, `mid`, `high` and `total` each in
[0,1], and `total` equals `0.5*low + 0.3*mid + 0.2*high` clamped to [0,1]. -/
theorem C1_calculateEnergyBands_bounds (data : List ℚ) (fftSize sampleRate : ℚ)
    (h : ∀ x ∈ data, 0 ≤ x ∧ x ≤ 1) :
    (0 ≤ (calculateEnergyBands data fftSize sampleRate).low ∧
      (calculateEnergyBands data fftSize sampleRate).low ≤ 1) ∧
    (0 ≤ (calculateEnergyBands data fftSize sampleRate).mid ∧
      (calculateEnergyBands data fftSize sampleRate).mid ≤ 1) ∧
    (0 ≤ (calculateEnergyBands data fftSize sampleRate).high ∧
      (calculateEnergyBands data fftSize sampleRate).high ≤ 1) ∧
    (0 ≤ (calculateEnergyBands data fftSize sampleRate).total ∧
      (calculateEnergyBands data fftSize sampleRate).total ≤ 1) ∧
    (calculateEnergyBands data fftSize sampleRate).total =
      min 1 (max 0 (0.5 * (calculateEnergyBands data fftSize sampleRate).low +
        0.3 * (calculateEnergyBands data fftSize sampleRate).mid +
        0.2 * (calculateEnergyBands data fftSize sampleRate).high)) := by
  simp only [calculateEnergyBands]
  refine ⟨calculateBandEnergy_mem_unit data _ _ h,
          calculateBandEnergy_mem_unit data _ _ h,
          calculateBandEnergy_mem_unit data _ _ h,
          ⟨le_min (by norm_num) (le_max_left 0 _), min_le_left _ _⟩, ?_⟩
  unfold LOW_WEIGHT MID_WEIGHT HIGH_WEIGHT
  ring_nf

/-- Witness for C1 at the concrete spectrum `[0.5, 0.25]`. -/
theorem C1_witness :
    (∀ x ∈ ([0.5, 0.25] : List ℚ), 0 ≤ x ∧ x ≤ 1) ∧
    ((0 ≤ (calculateEnergyBands [0.5, 0.25] 2048 44100).low ∧
      (calculateEnergyBands [0.5, 0.25] 2048 44100).low ≤ 1) ∧
    (0 ≤ (calculateEnergyBands [0.5, 0.25] 2048 44100).mid ∧
      (calculateEnergyBands [0.5, 0.25] 2048 44100).mid ≤ 1) ∧
    (0 ≤ (calculateEnergyBands [0.5, 0.25] 2048 44100).high ∧
      (calculateEnergyBands [0.5, 0.25] 2048 44100).high ≤ 1) ∧
    (0 ≤ (calculateEnergyBands [0.5, 0.25] 2048 44100).total ∧
      (calculateEnergyBands [0.5, 0.25] 2048 44100).total ≤ 1) ∧
    (calculateEnergyBands [0.5, 0.25] 2048 44100).total =
      min 1 (max 0 (0.5 * (calculateEnergyBands [0.5, 0.25] 2048 44100).low +
        0.3 * (calculateEnergyBands [0.5, 0.25] 2048 44100).mid +
        0.2 * (calculateEnergyBands [0.5, 0.25] 2048 44100).high))) :=
  ⟨by norm_num, C1_calculateEnergyBands_bounds [0.5, 0.25] 2048 44100 (by norm_num)⟩

/-- C7: each band's energy is the arithmetic mean of the magnitudes of the
bins in its range, and a range mapping to zero bins yields 0. -/
theorem C7_band_energy_is_mean (data : List ℚ) (s e : ℤ) :
    (0 ≤ s → s < e → e ≤ (data.length : ℤ) →
      ((data.drop s.toNat).take (e - s).toNat).length = (e - s).toNat ∧
      calculateBandEnergy data s e =
        ((data.drop s.toNat).take (e - s).toNat).sum /
          (((data.drop s.toNat).take (e - s).toNat).length : ℚ)) ∧
    (e ≤ s → calculateBandEnergy data s e = 0) := by
  constructor
  · intro hs0 hse hel
    have hlen : ((data.drop s.toNat).take (e - s).toNat).length = (e - s).toNat := by
      simp only [List.length_take, List.length_drop]
      omega
    refine ⟨hlen, ?_⟩
    have hng : ¬(s ≥ e ∨ s < 0 ∨ e > (data.length : ℤ)) := by omega
    have hc : e - s > 0 := by omega
    simp only [calculateBandEnergy, if_neg hng, if_pos hc, hlen]
    congr 1
    exact_mod_cast (Int.toNat_of_nonneg (by omega : (0:ℤ) ≤ e - s)).symm
  · intro hes
    have hg : s ≥ e ∨ s < 0 ∨ e > (data.length : ℤ) := Or.inl hes
    simp [calculateBandEnergy, hg]

/-- Witness for C7 at `[0.5, 0.25, 1]` with range `[0, 2)` and the degenerate
range `[2, 2)`. -/
theorem C7_witness :
    ((0:ℤ) ≤ 0 ∧ (0:ℤ) < 2 ∧ (2:ℤ) ≤ (([0.5, 0.25, 1] : List ℚ).length : ℤ)) ∧
    (((([0.5, 0.25, 1] : List ℚ).drop (0:ℤ).toNat).take ((2:ℤ) - 0).toNat).length
        = ((2:ℤ) - 0).toNat ∧
      calculateBandEnergy [0.5, 0.25, 1] 0 2 =
        ((([0.5, 0.25, 1] : List ℚ).drop (0:ℤ).toNat).take ((2:ℤ) - 0).toNat).sum /
          (((([0.5, 0.25, 1] : List ℚ).drop (0:ℤ).toNat).take ((2:ℤ) - 0).toNat).length : ℚ)) ∧
    ((2:ℤ) ≤ (2:ℤ)) ∧ calculateBandEnergy [0.5, 0.25, 1] 2 2 = 0 :=
  ⟨⟨by decide, by decide, by decide⟩,
   (C7_band_energy_is_mean [0.5, 0.25, 1] 0 2).1 (by decide) (by decide) (by decide),
   by decide,
   (C7_band_energy_is_mean [0.5, 0.25, 1] 2 2).2 (by decide)⟩

/-- C9: `calculateBandEnergy` is total and in-bounds: invalid ranges return 0,
and a valid range only reads indices in `[startBin, endBin)`, all inside the
array. -/
theorem C9_band_energy_safe (data : List ℚ) (s e : ℤ) :
    ((s ≥ e ∨ s < 0 ∨ e > (data.length : ℤ)) → calculateBandEnergy data s e = 0) ∧
    (0 ≤ s → s < e → e ≤ (data.length : ℤ) →
      (∀ i ∈ List.range' s.toNat (e - s).toNat, i < data.length) ∧
      calculateBandEnergy data s e =
        ((List.range' s.toNat (e - s).toNat).map fun i => data.getD i 0).sum /
          ((e - s : ℤ) : ℚ)) := by
  constructor
  · intro hg
    simp [calculateBandEnergy, hg]
  · intro hs0 hse hel
    constructor
    · intro i hi
      rw [List.mem_range'_1] at hi
      omega
    · have hng : ¬(s ≥ e ∨ s < 0 ∨ e > (data.length : ℤ)) := by omega
      have hc : e - s > 0 := by omega
      simp only [calculateBandEnergy, if_neg hng, if_pos hc]
      rw [drop_take_eq_range_map data s.toNat (e - s).toNat (by omega)]

/-- Witness for C9 at `[0.5, 0.25, 1]`: a negative start index returns 0, and
the full range `[0, 3)` reads exactly the in-bounds indices 0, 1, 2. -/
theorem C9_witness :
    (((-1:ℤ) ≥ 3 ∨ (-1:ℤ) < 0 ∨ (3:ℤ) > (([0.5, 0.25, 1] : List ℚ).length : ℤ)) ∧
      calculateBandEnergy [0.5, 0.25, 1] (-1) 3 = 0) ∧
    ((0:ℤ) ≤ 0 ∧ (0:ℤ) < 3 ∧ (3:ℤ) ≤ (([0.5, 0.25, 1] : List ℚ).length : ℤ)) ∧
    (∀ i ∈ List.range' (0:ℤ).toNat ((3:ℤ) - 0).toNat,
        i < ([0.5, 0.25, 1] : List ℚ).length) ∧
    calculateBandEnergy [0.5, 0.25, 1] 0 3 =
      ((List.range' (0:ℤ).toNat ((3:ℤ) - 0).toNat).map
          fun i => ([0.5, 0.25, 1] : List ℚ).getD i 0).sum /
        (((3:ℤ) - 0 : ℤ) : ℚ) :=
  ⟨⟨by decide, (C9_band_energy_safe [0.5, 0.25, 1] (-1) 3).1 (by decide)⟩,
   ⟨by decide, by decide, by decide⟩,
   ((C9_band_energy_safe [0.5, 0.25, 1] 0 3).2 (by decide) (by decide) (by decide)).1,
   ((C9_band_energy_safe [0.5, 0.25, 1] 0 3).2 (by decide) (by decide) (by decide)).2⟩

/-! ## BPM detector lemmas -/

theorem constrainBpm_mem (x : ℚ) : 60 ≤ constrainBpm x ∧ constrainBpm x ≤ 200 := by
  unfold constrainBpm MAX_BPM MIN_BPM
  exact ⟨le_min (by norm_num) (le_max_left _ _), min_le_left _ _⟩

theorem updateBpm_onsetTimes (d : BpmDetector) :
    d.updateBpm.onsetTimes = d.onsetTimes := by
  simp only [BpmDetector.updateBpm]
  split <;> rfl

theorem updateBpm_currentBpm_spec (d : BpmDetector) :
    d.updateBpm.currentBpm =
      (if 0 < (validIntervals d.onsetTimes).length then
        constrainBpm (60000 /
          ((validIntervals d.onsetTimes).sum / ((validIntervals d.onsetTimes).length : ℚ)))
       else d.currentBpm) := by
  unfold BpmDetector.updateBpm
  split <;> rename_i h
  · rw [if_pos h]
  · rw [if_neg h]

theorem processEnergy_snd_currentBpm (d : BpmDetector) (e t : ℚ) :
    (d.processEnergy e t).2.currentBpm = d.currentBpm ∨
    ∃ x, (d.processEnergy e t).2.currentBpm = constrainBpm x := by
  simp only [BpmDetector.processEnergy, BpmDetector.updateBpm]
  repeat' split
  all_goals first
  | (left; rfl)
  | (right; exact ⟨_, rfl⟩)

theorem applyOp_currentBpm_mem (d : BpmDetector) (op : DetectorOp)
    (h60 : 60 ≤ d.currentBpm) (h200 : d.currentBpm ≤ 200) :
    60 ≤ (applyOp d op).currentBpm ∧ (applyOp d op).currentBpm ≤ 200 := by
  cases op with
  | proc e t =>
    have ha : applyOp d (DetectorOp.proc e t) = (d.processEnergy e t).2 := rfl
    rcases processEnergy_snd_currentBpm d e t with h | ⟨x, h⟩
    · rw [ha, h]
      exact ⟨h60, h200⟩
    · rw [ha, h]
      exact constrainBpm_mem x
  | reset =>
    norm_num [applyOp, BpmDetector.reset]

theorem foldl_applyOp_currentBpm_mem (ops : List DetectorOp) :
    ∀ d : BpmDetector, 60 ≤ d.currentBpm → d.currentBpm ≤ 200 →
      60 ≤ (ops.foldl applyOp d).currentBpm ∧ (ops.foldl applyOp d).currentBpm ≤ 200 := by
  induction ops with
  | nil => intro d h1 h2; exact ⟨h1, h2⟩
  | cons op rest ih =>
    intro d h1 h2
    have h := applyOp_currentBpm_mem d op h1 h2
    simpa using ih _ h.1 h.2

/-- The `getBpm` accessor (lines 164-166). -/
def BpmDetector.getBpm (d : BpmDetector) : ℚ := d.currentBpm

/-- C2: for every sequence of `processEnergy` and `reset` calls on a
`BpmDetector`, and for any energy/timestamp inputs, the value returned by
`getBpm` always lies in [60, 200] (initial default 120 included). -/
theorem C2_getBpm_always_in_range (ops : List DetectorOp) :
    60 ≤ (runOps ops).getBpm ∧ (runOps ops).getBpm ≤ 200 :=
  foldl_applyOp_currentBpm_mem ops BpmDetector.init (by norm_num [BpmDetector.init])
    (by norm_num [BpmDetector.init])

theorem interOnsetIntervals_of_short (l : List ℚ) (h : l.length ≤ 1) :
    interOnsetIntervals l = [] := by
  cases l with
  | nil => rfl
  | cons a tl =>
    cases tl with
    | nil => rfl
    | cons b r => simp at h

theorem validIntervals_mem (l : List ℚ) (x : ℚ) (h : x ∈ validIntervals l) :
    300 ≤ x ∧ x ≤ 1000 := by
  unfold validIntervals at h
  have h2 := (List.mem_filter.mp h).2
  simp only [Bool.and_eq_true, decide_eq_true_eq, MIN_ONSET_INTERVAL_MS,
    MAX_ONSET_INTERVAL_MS] at h2
  exact h2

theorem constrainBpm_of_validIntervals (l : List ℚ)
    (hlen : 0 < (validIntervals l).length) :
    constrainBpm (60000 / ((validIntervals l).sum / ((validIntervals l).length : ℚ))) =
      60000 / ((validIntervals l).sum / ((validIntervals l).length : ℚ)) := by
  set vs := validIntervals l with hvs
  have hL : (0:ℚ) < (vs.length : ℚ) := by exact_mod_cast hlen
  have hlow : 300 * (vs.length : ℚ) ≤ vs.sum :=
    mul_length_le_list_sum vs 300 fun x hx => (validIntervals_mem l x hx).1
  have hhigh : vs.sum ≤ 1000 * (vs.length : ℚ) :=
    list_sum_le_mul_length vs 1000 fun x hx => (validIntervals_mem l x hx).2
  have h300 : 300 ≤ vs.sum / (vs.length : ℚ) := (le_div_iff₀ hL).mpr hlow
  have h1000 : vs.sum / (vs.length : ℚ) ≤ 1000 := (div_le_iff₀ hL).mpr hhigh
  have havgpos : (0:ℚ) < vs.sum / (vs.length : ℚ) := lt_of_lt_of_le (by norm_num) h300
  have hb60 : (60:ℚ) ≤ 60000 / (vs.sum / (vs.length : ℚ)) := by
    rw [le_div_iff₀ havgpos]
    linarith
  have hb200 : 60000 / (vs.sum / (vs.length : ℚ)) ≤ 200 := by
    rw [div_le_iff₀ havgpos]
    linarith
  unfold constrainBpm MIN_BPM MAX_BPM
  rw [max_eq_right hb60, min_eq_right hb200]

theorem processEnergy_snd_eq (d : BpmDetector) (e t : ℚ)
    (hc : e - d.lastEnergy > ONSET_THRESHOLD ∧
      t - d.lastOnsetTime > MIN_ONSET_INTERVAL_MS) :
    (d.processEnergy e t).2 =
      (if (if (d.onsetTimes ++ [t]).length > ONSET_HISTORY_SIZE
           then (d.onsetTimes ++ [t]).tail else d.onsetTimes ++ [t]).length ≥ 2
       then (BpmDetector.mk
              (if (d.onsetTimes ++ [t]).length > ONSET_HISTORY_SIZE
               then (d.onsetTimes ++ [t]).tail else d.onsetTimes ++ [t])
              e t d.currentBpm).updateBpm
       else BpmDetector.mk
              (if (d.onsetTimes ++ [t]).length > ONSET_HISTORY_SIZE
               then (d.onsetTimes ++ [t]).tail else d.onsetTimes ++ [t])
              e t d.currentBpm) := by
  simp only [BpmDetector.processEnergy, if_pos hc]
  by_cases h16 : (d.onsetTimes ++ [t]).length > ONSET_HISTORY_SIZE
  · simp only [if_pos h16]
  · simp only [if_neg h16]

/-- C3: on each detected onset, the detector appends the onset timestamp
(evicting the oldest when the history exceeds 16 entries) and then recomputes
BPM as 60000 divided by the mean of the valid inter-onset intervals; invalid
intervals are excluded from the mean, and if no valid interval exists BPM
holds its previous value. -/
theorem C3_onset_append_recompute (d : BpmDetector) (e t : ℚ)
    (h : (d.processEnergy e t).1 = true) :
    (d.processEnergy e t).2.onsetTimes =
      (if (d.onsetTimes ++ [t]).length > 16 then (d.onsetTimes ++ [t]).tail
       else d.onsetTimes ++ [t]) ∧
    (d.processEnergy e t).2.currentBpm =
      (if 0 < (validIntervals ((d.processEnergy e t).2.onsetTimes)).length then
        60000 / ((validIntervals ((d.processEnergy e t).2.onsetTimes)).sum /
          ((validIntervals ((d.processEnergy e t).2.onsetTimes)).length : ℚ))
       else d.currentBpm) := by
  have hc : e - d.lastEnergy > ONSET_THRESHOLD ∧
      t - d.lastOnsetTime > MIN_ONSET_INTERVAL_MS := by
    by_contra hcn
    simp only [BpmDetector.processEnergy, if_neg hcn] at h
    exact Bool.false_ne_true h
  rw [processEnergy_snd_eq d e t hc]
  simp only [ONSET_HISTORY_SIZE]
  set tt := if (d.onsetTimes ++ [t]).length > 16 then (d.onsetTimes ++ [t]).tail
            else d.onsetTimes ++ [t] with htt
  have hOT : (if tt.length ≥ 2 then (BpmDetector.mk tt e t d.currentBpm).updateBpm
              else BpmDetector.mk tt e t d.currentBpm).onsetTimes = tt := by
    split
    · rw [updateBpm_onsetTimes]
    · rfl
  rw [hOT]
  refine ⟨rfl, ?_⟩
  by_cases h2 : tt.length ≥ 2
  · rw [if_pos h2]
    have hspec := updateBpm_currentBpm_spec (BpmDetector.mk tt e t d.currentBpm)
    dsimp only at hspec
    rw [hspec]
    by_cases hvi : 0 < (validIntervals tt).length
    · rw [if_pos hvi, if_pos hvi, constrainBpm_of_validIntervals tt hvi]
    · rw [if_neg hvi, if_neg hvi]
  · rw [if_neg h2]
    have hvi : validIntervals tt = [] := by
      unfold validIntervals
      rw [interOnsetIntervals_of_short tt (by omega)]
      rfl
    rw [hvi]
    simp

/-- Witness for C3: after an onset at t=400, a second onset at t=800 appends
the timestamp and recomputes BPM (here 60000/400 = 150). -/
theorem C3_witness :
    ((BpmDetector.init.processEnergy 1 400).2.processEnergy 2 800).1 = true ∧
    (((BpmDetector.init.processEnergy 1 400).2.processEnergy 2 800).2.onsetTimes =
      (if ((BpmDetector.init.processEnergy 1 400).2.onsetTimes ++ [800]).length > 16
       then ((BpmDetector.init.processEnergy 1 400).2.onsetTimes ++ [800]).tail
       else (BpmDetector.init.processEnergy 1 400).2.onsetTimes ++ [800]) ∧
     ((BpmDetector.init.processEnergy 1 400).2.processEnergy 2 800).2.currentBpm =
      (if 0 < (validIntervals
          (((BpmDetector.init.processEnergy 1 400).2.processEnergy 2 800).2.onsetTimes)).length
       then
        60000 / ((validIntervals
            (((BpmDetector.init.processEnergy 1 400).2.processEnergy 2 800).2.onsetTimes)).sum /
          ((validIntervals
            (((BpmDetector.init.processEnergy 1 400).2.processEnergy 2 800).2.onsetTimes)).length : ℚ))
       else (BpmDetector.init.processEnergy 1 400).2.currentBpm)) :=
  ⟨by norm_num [BpmDetector.processEnergy, BpmDetector.init, BpmDetector.updateBpm,
      validIntervals, interOnsetIntervals, constrainBpm, ONSET_THRESHOLD,
      MIN_ONSET_INTERVAL_MS, MAX_ONSET_INTERVAL_MS, ONSET_HISTORY_SIZE, MIN_BPM, MAX_BPM],
   C3_onset_append_recompute _ 2 800
     (by norm_num [BpmDetector.processEnergy, BpmDetector.init, BpmDetector.updateBpm,
        validIntervals, interOnsetIntervals, constrainBpm, ONSET_THRESHOLD,
        MIN_ONSET_INTERVAL_MS, MAX_ONSET_INTERVAL_MS, ONSET_HISTORY_SIZE, MIN_BPM, MAX_BPM])⟩

/-- Counterexample to C4 as stated: after an onset at t=400, a tick at t=700
has energy delta 1 > 0.15 and exactly 300ms elapsed ("at least" 300ms), yet
`processEnergy` declares no onset because the code requires strictly more
than 300ms. -/
theorem C4_counterexample :
    (BpmDetector.init.processEnergy 1 400).1 = true ∧
    (2:ℚ) - (BpmDetector.init.processEnergy 1 400).2.lastEnergy > 0.15 ∧
    (700:ℚ) - (BpmDetector.init.processEnergy 1 400).2.lastOnsetTime ≥ 300 ∧
    ((BpmDetector.init.processEnergy 1 400).2.processEnergy 2 700).1 = false := by
  norm_num [BpmDetector.processEnergy, BpmDetector.init, BpmDetector.updateBpm,
    validIntervals, interOnsetIntervals, constrainBpm, ONSET_THRESHOLD,
    MIN_ONSET_INTERVAL_MS, MAX_ONSET_INTERVAL_MS, ONSET_HISTORY_SIZE, MIN_BPM, MAX_BPM]

/-- C4 (amended): `processEnergy` declares an onset (returns true) exactly
when the energy delta from the previous tick exceeds 0.15 AND strictly more
than 300ms (the minimum inter-onset interval for 200 BPM) has elapsed since
the last onset. -/
theorem C4_onset_iff (d : BpmDetector) (e t : ℚ) :
    (d.processEnergy e t).1 = true ↔
      (e - d.lastEnergy > 0.15 ∧ t - d.lastOnsetTime > 300) := by
  simp only [BpmDetector.processEnergy]
  split <;> rename_i hcc
  · simp only [ONSET_THRESHOLD, MIN_ONSET_INTERVAL_MS] at hcc
    simp [hcc]
  · simp only [ONSET_THRESHOLD, MIN_ONSET_INTERVAL_MS] at hcc
    simp [hcc]

/-- C5: when the analyzer is not connected, `getAnalysis` still returns a
complete analysis: an all-zero 1024-bin spectrum frame and zero energy in
every band. -/
theorem C5_silent_when_disconnected (st : AnalyzerState) (raw : List ℚ) (t : ℚ)
    (h : st.isConnected = false) :
    (getAnalysis st raw t).1.fft = List.replicate 1024 0 ∧
    (getAnalysis st raw t).1.energy = ⟨0, 0, 0, 0⟩ := by
  unfold getAnalysis
  rw [if_pos (Or.inl h)]
  exact ⟨rfl, rfl⟩

/-- Witness for C5 at a concrete disconnected state. -/
theorem C5_witness :
    (AnalyzerState.mk false true BpmDetector.init none).isConnected = false ∧
    ((getAnalysis (AnalyzerState.mk false true BpmDetector.init none) [] 0).1.fft =
        List.replicate 1024 0 ∧
      (getAnalysis (AnalyzerState.mk false true BpmDetector.init none) [] 0).1.energy =
        ⟨0, 0, 0, 0⟩) :=
  ⟨rfl, C5_silent_when_disconnected (AnalyzerState.mk false true BpmDetector.init none) [] 0 rfl⟩

/-- C6: for every 1024-bin input frame of raw dB values, the normalized
spectrum has exactly 1024 bins and each output bin equals the input clamped
to [-100dB, 0dB] then mapped affinely into [0,1]; hence each bin is in
[0,1]. -/
theorem C6_normalize_clamp (l : List ℚ) (h : l.length = 1024) :
    (normalizeFftData l).length = 1024 ∧
    ∀ i, i < 1024 →
      (normalizeFftData l).getD i 0 =
        (max (-100) (min 0 (l.getD i 0)) + 100) / 100 ∧
      0 ≤ (normalizeFftData l).getD i 0 ∧ (normalizeFftData l).getD i 0 ≤ 1 := by
  constructor
  · simp [normalizeFftData, h]
  · intro i hi
    have hil : i < l.length := by omega
    have hmap : (normalizeFftData l).getD i 0 =
        (max (-100) (min 0 (l.getD i 0)) - (-100)) / (0 - (-100)) := by
      unfold normalizeFftData
      rw [List.getD_eq_getElem _ 0 (by simpa [normalizeFftData] using hil),
          List.getD_eq_getElem _ 0 hil, List.getElem_map]
    set c := max (-100) (min 0 (l.getD i 0)) with hcdef
    have hc0 : c ≤ 0 := max_le (by norm_num) (min_le_left _ _)
    have hc100 : -100 ≤ c := le_max_left _ _
    constructor
    · rw [hmap]
      norm_num
    constructor
    · rw [hmap]
      apply div_nonneg _ (by norm_num)
      linarith
    · rw [hmap]
      rw [div_le_one (by norm_num)]
      linarith

/-- Witness for C6 at the all-(-50dB) frame. -/
theorem C6_witness :
    (List.replicate 1024 (-50 : ℚ)).length = 1024 ∧
    ((normalizeFftData (List.replicate 1024 (-50 : ℚ))).length = 1024 ∧
     ∀ i, i < 1024 →
      (normalizeFftData (List.replicate 1024 (-50 : ℚ))).getD i 0 =
        (max (-100) (min 0 ((List.replicate 1024 (-50 : ℚ)).getD i 0)) + 100) / 100 ∧
      0 ≤ (normalizeFftData (List.replicate 1024 (-50 : ℚ))).getD i 0 ∧
      (normalizeFftData (List.replicate 1024 (-50 : ℚ))).getD i 0 ≤ 1) :=
  ⟨by rw [List.length_replicate], C6_normalize_clamp (List.replicate 1024 (-50 : ℚ))
    (by rw [List.length_replicate])⟩

/-- C8: after `reset` (invoked by `disconnect`), the onset history is empty,
the stored last energy and last onset time are cleared, the BPM is restored
to the default 120, and no inter-onset interval survives. -/
theorem C8_reset_clears (d : BpmDetector) (st : AnalyzerState) :
    d.reset.onsetTimes = [] ∧
    d.reset.lastEnergy = 0 ∧
    d.reset.lastOnsetTime = 0 ∧
    d.reset.currentBpm = 120 ∧
    validIntervals d.reset.onsetTimes = [] ∧
    (disconnect st).detector = st.detector.reset ∧
    (disconnect st).isConnected = false :=
  ⟨rfl, rfl, rfl, rfl, rfl, rfl, rfl⟩

/-- C10: whenever the analyzer is not connected, the silent analysis returned
by `getAnalysis` reports bpm exactly 120 and beat exactly false, regardless of
the detector's current estimate, and its spectrum frame has length 1024. -/
theorem C10_silent_defaults (st : AnalyzerState) (raw : List ℚ) (t : ℚ)
    (h : st.isConnected = false) :
    (getAnalysis st raw t).1.bpm = 120 ∧
    (getAnalysis st raw t).1.beat = false ∧
    (getAnalysis st raw t).1.fft.length = 1024 := by
  unfold getAnalysis
  rw [if_pos (Or.inl h)]
  refine ⟨rfl, rfl, ?_⟩
  simp only [createSilentAnalysis]
  rw [List.length_replicate]

/-- Witness for C10 at a disconnected state whose detector holds BPM 180. -/
theorem C10_witness :
    (AnalyzerState.mk false true (BpmDetector.mk [] 0 0 180) none).isConnected = false ∧
    ((getAnalysis (AnalyzerState.mk false true (BpmDetector.mk [] 0 0 180) none) [] 5).1.bpm
        = 120 ∧
     (getAnalysis (AnalyzerState.mk false true (BpmDetector.mk [] 0 0 180) none) [] 5).1.beat
        = false ∧
     (getAnalysis (AnalyzerState.mk false true (BpmDetector.mk [] 0 0 180) none) [] 5).1.fft.length
        = 1024) :=
  ⟨rfl, C10_silent_defaults (AnalyzerState.mk false true (BpmDetector.mk [] 0 0 180) none) [] 5 rfl⟩
